import Mathlib

/-!
Verification of the Game of Life engine in src/main.py.

The data entities Dim, Grid and Neighbours come from grid_defs (a module of
the repository whose source is not included); they are modelled from the
spec, section 3: Dim is a pair of integers, Grid couples a Dim with a sparse
set of live-cell coordinates, Neighbours is a pair of coordinate sets.
Everything operational is translated directly from src/main.py:
get_neighbours (lines 34-42), update_grid (45-64), generate_random_grid
(89-98), update_grid_highlife (104-125), update_grid_day_night (128-150)
and update_grid_seeds (153-174).

Python sets of integer pairs become Finset (ZZ x ZZ); the defaultdict tally
built by the survival pass (for each position appearing among the dead
neighbours of some live cell, the number of live cells contributing it)
is denoted by its value, undead_count, together with its key set,
undead_support.
-/

/-- Modelled from the spec: grid_defs.Dim, an immutable pair of integers
(width, height). The spec calls them non-negative; Python ints are
unbounded signed integers, so we use integers and state non-negativity
as a hypothesis where a claim needs it. -/
structure Dim where
  width : ℤ
  height : ℤ
deriving DecidableEq

/-- Modelled from the spec: grid_defs.Grid, a Dim plus a sparse set of
live-cell coordinates. -/
structure Grid where
  dim : Dim
  cells : Finset (ℤ × ℤ)
deriving DecidableEq

/-- Modelled from the spec: grid_defs.Neighbours, the pair of sets
(alive, dead) returned by one neighbour query. -/
structure Neighbours where
  alive : Finset (ℤ × ℤ)
  dead : Finset (ℤ × ℤ)
deriving DecidableEq

/-- The eight Moore offsets, src/main.py line 39. -/
def offsets : List (ℤ × ℤ) :=
  [(-1, -1), (0, -1), (1, -1), (-1, 0), (1, 0), (-1, 1), (0, 1), (1, 1)]

/-- The set comprehension on src/main.py line 40: the eight candidate
neighbour positions of (x, y). -/
def possible_neighbours (x y : ℤ) : Finset (ℤ × ℤ) :=
  (offsets.map (fun d => (x + d.1, y + d.2))).toFinset

/-- src/main.py lines 34-42: partition the Moore neighbourhood of (x, y)
into the positions present in grid.cells and the rest. -/
def get_neighbours (grid : Grid) (x y : ℤ) : Neighbours :=
  ⟨(possible_neighbours x y).filter (fun p => p ∈ grid.cells),
   possible_neighbours x y \ (possible_neighbours x y).filter (fun p => p ∈ grid.cells)⟩

/-- Value of the defaultdict tally built at src/main.py lines 51-59 (and
identically at 111-119, 136-144, 161-168) once the loop over grid.cells is
done: undead[pos] is the number of live cells that list pos among their
dead neighbours. -/
def undead_count (grid : Grid) (pos : ℤ × ℤ) : ℕ :=
  (grid.cells.filter (fun c => pos ∈ (get_neighbours grid c.1 c.2).dead)).card

/-- Key set of that tally: the positions that received at least one
increment, i.e. the dead neighbours of at least one live cell. Iterating
undead.items() iterates exactly over this set. -/
def undead_support (grid : Grid) : Finset (ℤ × ℤ) :=
  grid.cells.biUnion (fun c => (get_neighbours grid c.1 c.2).dead)

/-- src/main.py lines 45-64, update_grid (Conway): start from a copy of
grid.cells, drop every live cell whose alive-neighbour count is not in
[2, 3], then add every tallied position whose count equals 3. -/
def update_grid (grid : Grid) : Grid :=
  ⟨grid.dim,
   grid.cells.filter (fun c => (get_neighbours grid c.1 c.2).alive.card ∈ [2, 3]) ∪
     (undead_support grid).filter (fun pos => undead_count grid pos = 3)⟩

/-- src/main.py lines 104-125, update_grid_highlife: survival count in
[2, 3], birth count in [3, 6]. -/
def update_grid_highlife (grid : Grid) : Grid :=
  ⟨grid.dim,
   grid.cells.filter (fun c => (get_neighbours grid c.1 c.2).alive.card ∈ [2, 3]) ∪
     (undead_support grid).filter (fun pos => undead_count grid pos ∈ [3, 6])⟩

/-- src/main.py lines 128-150, update_grid_day_night: survival count in
[3, 4, 6, 7, 8], birth count in [3, 6, 7, 8]. -/
def update_grid_day_night (grid : Grid) : Grid :=
  ⟨grid.dim,
   grid.cells.filter (fun c => (get_neighbours grid c.1 c.2).alive.card ∈ [3, 4, 6, 7, 8]) ∪
     (undead_support grid).filter (fun pos => undead_count grid pos ∈ [3, 6, 7, 8])⟩

/-- src/main.py lines 153-174, update_grid_seeds: new_cells starts as a
copy of grid.cells and the loop body performs no removal (the only
statements are the neighbour query and the tally increments), so every
input live cell is retained; tallied positions with count 2 are added. -/
def update_grid_seeds (grid : Grid) : Grid :=
  ⟨grid.dim,
   grid.cells ∪ (undead_support grid).filter (fun pos => undead_count grid pos = 2)⟩

/-- The live-neighbour count of an arbitrary position: how many of its
eight Moore neighbours are in grid.cells. For a live cell this is the
len(alive_neighbours) the survival checks read; for a dead position it
coincides with the tally value (proved below). -/
def live_neighbour_count (grid : Grid) (p : ℤ × ℤ) : ℕ :=
  ((possible_neighbours p.1 p.2).filter (fun q => q ∈ grid.cells)).card

/-- src/main.py lines 89-98, generate_random_grid. The stream of
random.random() draws, one per inner-loop iteration, is modelled as an
explicit source rand giving the draw consumed at loop indices (x, y);
Python floats in [0, 1) are modelled as rationals. A coordinate (x, y)
with 0 <= x < width and 0 <= y < height joins the live set exactly when
its draw is strictly below live_cell_probability; range over a
non-positive bound iterates zero times, matching Int.toNat. -/
def generate_random_grid (dim : Dim) (live_cell_probability : ℚ) (rand : ℕ → ℕ → ℚ) : Grid :=
  ⟨dim,
   ((Finset.range dim.width.toNat ×ˢ Finset.range dim.height.toNat).filter
       (fun q => rand q.1 q.2 < live_cell_probability)).image
     (fun q => ((q.1 : ℤ), (q.2 : ℤ)))⟩

/-! Basic facts about the neighbourhood. -/

theorem offsets_nodup : offsets.Nodup := by decide

theorem mem_possible_neighbours (p : ℤ × ℤ) (x y : ℤ) :
    p ∈ possible_neighbours x y ↔ (p.1 - x, p.2 - y) ∈ offsets := by
  obtain ⟨p1, p2⟩ := p
  simp only [possible_neighbours, List.mem_toFinset, List.mem_map]
  constructor
  · rintro ⟨⟨d1, d2⟩, hd, heq⟩
    have h1 : x + d1 = p1 := congrArg Prod.fst heq
    have h2 : y + d2 = p2 := congrArg Prod.snd heq
    have e1 : p1 - x = d1 := by omega
    have e2 : p2 - y = d2 := by omega
    rw [e1, e2]
    exact hd
  · intro h
    refine ⟨(p1 - x, p2 - y), h, ?_⟩
    simp only [Prod.mk.injEq]
    omega

theorem neg_mem_offsets {d : ℤ × ℤ} (h : d ∈ offsets) : (-d.1, -d.2) ∈ offsets := by
  simp only [offsets, List.mem_cons, List.not_mem_nil, or_false] at h
  rcases h with h | h | h | h | h | h | h | h <;> subst h <;> decide

theorem possible_neighbours_comm (p q : ℤ × ℤ) :
    p ∈ possible_neighbours q.1 q.2 ↔ q ∈ possible_neighbours p.1 p.2 := by
  rw [mem_possible_neighbours, mem_possible_neighbours]
  constructor
  · intro h
    have h2 := neg_mem_offsets h
    simpa [neg_sub] using h2
  · intro h
    have h2 := neg_mem_offsets h
    simpa [neg_sub] using h2

theorem mem_dead (grid : Grid) (x y : ℤ) (p : ℤ × ℤ) :
    p ∈ (get_neighbours grid x y).dead ↔ p ∈ possible_neighbours x y ∧ p ∉ grid.cells := by
  have h : (get_neighbours grid x y).dead
      = possible_neighbours x y \ (possible_neighbours x y).filter (fun q => q ∈ grid.cells) :=
    rfl
  rw [h, Finset.mem_sdiff, Finset.mem_filter]
  constructor
  · rintro ⟨hpn, hn⟩
    exact ⟨hpn, fun hc => hn ⟨hpn, hc⟩⟩
  · rintro ⟨hpn, hn⟩
    exact ⟨hpn, fun hc => hn hc.2⟩

theorem alive_card (grid : Grid) (p : ℤ × ℤ) :
    (get_neighbours grid p.1 p.2).alive.card = live_neighbour_count grid p := rfl

theorem card_possible_neighbours (x y : ℤ) : (possible_neighbours x y).card = 8 := by
  have hinj : Function.Injective (fun d : ℤ × ℤ => (x + d.1, y + d.2)) := by
    rintro ⟨a1, a2⟩ ⟨b1, b2⟩ h
    simp only [Prod.mk.injEq] at h ⊢
    omega
  have hnd : (offsets.map (fun d : ℤ × ℤ => (x + d.1, y + d.2))).Nodup :=
    offsets_nodup.map hinj
  rw [possible_neighbours, List.toFinset_card_of_nodup hnd, List.length_map]
  rfl

/-! The tally agrees with the live-neighbour count on dead positions. -/

theorem undead_count_eq (grid : Grid) (pos : ℤ × ℤ) (h : pos ∉ grid.cells) :
    undead_count grid pos = live_neighbour_count grid pos := by
  have hfilter : grid.cells.filter (fun c => pos ∈ (get_neighbours grid c.1 c.2).dead)
      = grid.cells.filter (fun c => c ∈ possible_neighbours pos.1 pos.2) := by
    apply Finset.filter_congr
    intro c _
    rw [mem_dead grid c.1 c.2 pos]
    constructor
    · intro hc
      exact (possible_neighbours_comm pos c).mp hc.1
    · intro hc
      exact ⟨(possible_neighbours_comm pos c).mpr hc, h⟩
  have hinter : grid.cells.filter (fun c => c ∈ possible_neighbours pos.1 pos.2)
      = (possible_neighbours pos.1 pos.2).filter (fun q => q ∈ grid.cells) := by
    rw [Finset.filter_mem_eq_inter, Finset.filter_mem_eq_inter, Finset.inter_comm]
  rw [undead_count, hfilter, hinter, live_neighbour_count]

theorem mem_undead_support (grid : Grid) (pos : ℤ × ℤ) :
    pos ∈ undead_support grid ↔
      pos ∉ grid.cells ∧ ∃ c ∈ grid.cells, c ∈ possible_neighbours pos.1 pos.2 := by
  simp only [undead_support, Finset.mem_biUnion]
  constructor
  · rintro ⟨c, hc, hd⟩
    obtain ⟨hpn, hdead⟩ := (mem_dead grid c.1 c.2 pos).mp hd
    exact ⟨hdead, c, hc, (possible_neighbours_comm pos c).mp hpn⟩
  · rintro ⟨hdead, c, hc, hpn⟩
    exact ⟨c, hc, (mem_dead grid c.1 c.2 pos).mpr
      ⟨(possible_neighbours_comm pos c).mpr hpn, hdead⟩⟩

theorem support_count_iff (grid : Grid) (pos : ℤ × ℤ) (P : ℕ → Prop) (h0 : ¬ P 0) :
    (pos ∈ undead_support grid ∧ P (undead_count grid pos)) ↔
      (pos ∉ grid.cells ∧ P (live_neighbour_count grid pos)) := by
  constructor
  · rintro ⟨hs, hP⟩
    have hd : pos ∉ grid.cells := ((mem_undead_support grid pos).mp hs).1
    rw [undead_count_eq grid pos hd] at hP
    exact ⟨hd, hP⟩
  · rintro ⟨hd, hP⟩
    have hne : live_neighbour_count grid pos ≠ 0 := by
      intro hz
      rw [hz] at hP
      exact h0 hP
    have hpos : 0 < ((possible_neighbours pos.1 pos.2).filter
        (fun q => q ∈ grid.cells)).card := Nat.pos_of_ne_zero hne
    obtain ⟨c, hc⟩ := Finset.card_pos.mp hpos
    rw [Finset.mem_filter] at hc
    refine ⟨?_, by rwa [undead_count_eq grid pos hd]⟩
    rw [mem_undead_support]
    exact ⟨hd, c, hc.2, hc.1⟩

theorem support_subset_neighbourhood (grid : Grid) (p : ℤ × ℤ)
    (h : p ∈ undead_support grid) :
    ∃ c ∈ grid.cells, p ∈ possible_neighbours c.1 c.2 := by
  rw [undead_support, Finset.mem_biUnion] at h
  obtain ⟨c, hc, hd⟩ := h
  exact ⟨c, hc, ((mem_dead grid c.1 c.2 p).mp hd).1⟩

/-! Chebyshev characterisation of the Moore neighbourhood. -/

theorem mem_offsets_iff (d : ℤ × ℤ) :
    d ∈ offsets ↔ max d.1.natAbs d.2.natAbs = 1 := by
  obtain ⟨d1, d2⟩ := d
  simp only [offsets, List.mem_cons, List.not_mem_nil, or_false, Prod.mk.injEq]
  omega

theorem mem_possible_neighbours_chebyshev (p : ℤ × ℤ) (x y : ℤ) :
    p ∈ possible_neighbours x y ↔ max (p.1 - x).natAbs (p.2 - y).natAbs = 1 := by
  rw [mem_possible_neighbours, mem_offsets_iff]

/-! Membership in the next generation, for each variant. -/

theorem mem_update_grid (grid : Grid) (pos : ℤ × ℤ) :
    pos ∈ (update_grid grid).cells ↔
      (pos ∈ grid.cells ∧
        (live_neighbour_count grid pos = 2 ∨ live_neighbour_count grid pos = 3)) ∨
      (pos ∉ grid.cells ∧ live_neighbour_count grid pos = 3) := by
  simp only [update_grid, Finset.mem_union, Finset.mem_filter, alive_card,
    List.mem_cons, List.mem_singleton, List.not_mem_nil, or_false]
  constructor
  · rintro (hs | hb)
    · exact Or.inl hs
    · exact Or.inr ((support_count_iff grid pos (fun n => n = 3) (by simp)).mp hb)
  · rintro (hs | hb)
    · exact Or.inl hs
    · exact Or.inr ((support_count_iff grid pos (fun n => n = 3) (by simp)).mpr hb)

theorem mem_update_grid_highlife (grid : Grid) (pos : ℤ × ℤ) :
    pos ∈ (update_grid_highlife grid).cells ↔
      (pos ∈ grid.cells ∧
        (live_neighbour_count grid pos = 2 ∨ live_neighbour_count grid pos = 3)) ∨
      (pos ∉ grid.cells ∧
        (live_neighbour_count grid pos = 3 ∨ live_neighbour_count grid pos = 6)) := by
  simp only [update_grid_highlife, Finset.mem_union, Finset.mem_filter, alive_card,
    List.mem_cons, List.mem_singleton, List.not_mem_nil, or_false]
  constructor
  · rintro (hs | hb)
    · exact Or.inl hs
    · exact Or.inr ((support_count_iff grid pos (fun n => n = 3 ∨ n = 6) (by simp)).mp hb)
  · rintro (hs | hb)
    · exact Or.inl hs
    · exact Or.inr ((support_count_iff grid pos (fun n => n = 3 ∨ n = 6) (by simp)).mpr hb)

theorem mem_update_grid_day_night (grid : Grid) (pos : ℤ × ℤ) :
    pos ∈ (update_grid_day_night grid).cells ↔
      (pos ∈ grid.cells ∧
        (live_neighbour_count grid pos = 3 ∨ live_neighbour_count grid pos = 4 ∨
         live_neighbour_count grid pos = 6 ∨ live_neighbour_count grid pos = 7 ∨
         live_neighbour_count grid pos = 8)) ∨
      (pos ∉ grid.cells ∧
        (live_neighbour_count grid pos = 3 ∨ live_neighbour_count grid pos = 6 ∨
         live_neighbour_count grid pos = 7 ∨ live_neighbour_count grid pos = 8)) := by
  simp only [update_grid_day_night, Finset.mem_union, Finset.mem_filter, alive_card,
    List.mem_cons, List.mem_singleton, List.not_mem_nil, or_false]
  constructor
  · rintro (hs | hb)
    · exact Or.inl hs
    · exact Or.inr ((support_count_iff grid pos
        (fun n => n = 3 ∨ n = 6 ∨ n = 7 ∨ n = 8) (by simp)).mp hb)
  · rintro (hs | hb)
    · exact Or.inl hs
    · exact Or.inr ((support_count_iff grid pos
        (fun n => n = 3 ∨ n = 6 ∨ n = 7 ∨ n = 8) (by simp)).mpr hb)

theorem mem_update_grid_seeds (grid : Grid) (pos : ℤ × ℤ) :
    pos ∈ (update_grid_seeds grid).cells ↔
      pos ∈ grid.cells ∨ (pos ∉ grid.cells ∧ live_neighbour_count grid pos = 2) := by
  simp only [update_grid_seeds, Finset.mem_union, Finset.mem_filter]
  constructor
  · rintro (hs | hb)
    · exact Or.inl hs
    · exact Or.inr ((support_count_iff grid pos (fun n => n = 2) (by simp)).mp hb)
  · rintro (hs | hb)
    · exact Or.inl hs
    · exact Or.inr ((support_count_iff grid pos (fun n => n = 2) (by simp)).mpr hb)

/-! Auxiliary results used by the claim theorems. -/

theorem support_locality (grid : Grid) (p : ℤ × ℤ) (h : p ∈ undead_support grid) :
    ∃ c ∈ grid.cells, max (p.1 - c.1).natAbs (p.2 - c.2).natAbs = 1 := by
  obtain ⟨c, hc, hpn⟩ := support_subset_neighbourhood grid p h
  exact ⟨c, hc, (mem_possible_neighbours_chebyshev p c.1 c.2).mp hpn⟩

theorem update_grid_cells_dim_indep (d : Dim) (s : Finset (ℤ × ℤ)) :
    (update_grid ⟨d, s⟩).cells = (update_grid ⟨⟨0, 0⟩, s⟩).cells := rfl

/-! The claims. -/

/-- Claim C1: for every grid, the live-cell set of the update_grid result is
exactly the input live cells whose Moore live-neighbour count is 2 or 3
together with the currently dead positions whose live-neighbour count is
exactly 3. -/
theorem update_grid_conway_contract (grid : Grid) (pos : ℤ × ℤ) :
    pos ∈ (update_grid grid).cells ↔
      (pos ∈ grid.cells ∧
        (live_neighbour_count grid pos = 2 ∨ live_neighbour_count grid pos = 3)) ∨
      (pos ∉ grid.cells ∧ live_neighbour_count grid pos = 3) :=
  mem_update_grid grid pos

/-- Claim C2, code-bug evidence: on the grid whose only live cell is (0, 0),
update_grid_seeds keeps (0, 0) in the next generation, although the Seeds
rule and the docstrings of the module and of the function itself say every
live cell dies. The loop at src/main.py lines 163-168 never removes
anything from new_cells, which starts as a full copy of grid.cells. -/
theorem update_grid_seeds_live_cell_survives :
    (0, 0) ∈ (Grid.mk ⟨1, 1⟩ {((0 : ℤ), (0 : ℤ))}).cells ∧
    (0, 0) ∈ (update_grid_seeds ⟨⟨1, 1⟩, {((0 : ℤ), (0 : ℤ))}⟩).cells :=
  ⟨by decide, by decide⟩

/-- Claim C3: get_neighbours returns disjoint sets alive and dead whose
union is the Moore neighbourhood, an 8-element set, with the cards adding
to 8, and alive is exactly the neighbourhood members present in
grid.cells. -/
theorem get_neighbours_partition (grid : Grid) (x y : ℤ) :
    Disjoint (get_neighbours grid x y).alive (get_neighbours grid x y).dead ∧
    (get_neighbours grid x y).alive ∪ (get_neighbours grid x y).dead
      = possible_neighbours x y ∧
    (possible_neighbours x y).card = 8 ∧
    (get_neighbours grid x y).alive.card + (get_neighbours grid x y).dead.card = 8 ∧
    (∀ p, p ∈ (get_neighbours grid x y).alive ↔
      p ∈ possible_neighbours x y ∧ p ∈ grid.cells) := by
  have ha : (get_neighbours grid x y).alive
      = (possible_neighbours x y).filter (fun q => q ∈ grid.cells) := rfl
  have hd : (get_neighbours grid x y).dead
      = possible_neighbours x y
          \ (possible_neighbours x y).filter (fun q => q ∈ grid.cells) := rfl
  have hsub : (possible_neighbours x y).filter (fun q => q ∈ grid.cells)
      ⊆ possible_neighbours x y := Finset.filter_subset _ _
  refine ⟨?_, ?_, card_possible_neighbours x y, ?_, ?_⟩
  · rw [ha, hd]
    exact Finset.disjoint_sdiff
  · rw [ha, hd]
    exact Finset.union_sdiff_of_subset hsub
  · rw [ha, hd]
    have hcard := Finset.card_sdiff_add_card_eq_card hsub
    have h8 := card_possible_neighbours x y
    omega
  · intro p
    rw [ha, Finset.mem_filter]

/-- Claim C4: for each of the four variants, updating a grid with no live
cells yields a grid with no live cells. -/
theorem empty_grid_fixed_point (d : Dim) :
    (update_grid ⟨d, ∅⟩).cells = ∅ ∧
    (update_grid_highlife ⟨d, ∅⟩).cells = ∅ ∧
    (update_grid_day_night ⟨d, ∅⟩).cells = ∅ ∧
    (update_grid_seeds ⟨d, ∅⟩).cells = ∅ := by
  refine ⟨?_, ?_, ?_, ?_⟩ <;>
    simp [update_grid, update_grid_highlife, update_grid_day_night, update_grid_seeds,
      undead_support]

/-- Claim C5: a currently dead position with exactly 6 live Moore
neighbours is live after update_grid_highlife but dead after update_grid
on the same input grid. -/
theorem highlife_six_neighbour_birth (grid : Grid) (pos : ℤ × ℤ)
    (hdead : pos ∉ grid.cells) (hsix : live_neighbour_count grid pos = 6) :
    pos ∈ (update_grid_highlife grid).cells ∧ pos ∉ (update_grid grid).cells := by
  constructor
  · rw [mem_update_grid_highlife]
    exact Or.inr ⟨hdead, Or.inr hsix⟩
  · rw [mem_update_grid]
    rintro (⟨hc, _⟩ | ⟨_, h3⟩)
    · exact hdead hc
    · omega

/-- Concrete input for the C5 witness: two horizontal rows of three live
cells with the dead position (1, 1) between them, which therefore has
exactly 6 live neighbours. -/
def highlife_witness_grid : Grid :=
  ⟨⟨5, 5⟩, {((0 : ℤ), (0 : ℤ)), (1, 0), (2, 0), (0, 2), (1, 2), (2, 2)}⟩

/-- Witness for claim C5 at the concrete grid highlife_witness_grid and
position (1, 1). -/
theorem highlife_six_neighbour_birth_witness :
    ((1, 1) ∉ highlife_witness_grid.cells ∧
      live_neighbour_count highlife_witness_grid (1, 1) = 6) ∧
    ((1, 1) ∈ (update_grid_highlife highlife_witness_grid).cells ∧
      (1, 1) ∉ (update_grid highlife_witness_grid).cells) :=
  ⟨⟨by decide, by decide⟩,
   highlife_six_neighbour_birth highlife_witness_grid (1, 1) (by decide) (by decide)⟩

/-- Claim C6: for every grid, the live-cell set of the
update_grid_day_night result is exactly the input live cells with
live-neighbour count in 3, 4, 6, 7, 8 together with the currently dead
positions with live-neighbour count in 3, 6, 7, 8. -/
theorem update_grid_day_night_contract (grid : Grid) (pos : ℤ × ℤ) :
    pos ∈ (update_grid_day_night grid).cells ↔
      (pos ∈ grid.cells ∧
        (live_neighbour_count grid pos = 3 ∨ live_neighbour_count grid pos = 4 ∨
         live_neighbour_count grid pos = 6 ∨ live_neighbour_count grid pos = 7 ∨
         live_neighbour_count grid pos = 8)) ∨
      (pos ∉ grid.cells ∧
        (live_neighbour_count grid pos = 3 ∨ live_neighbour_count grid pos = 6 ∨
         live_neighbour_count grid pos = 7 ∨ live_neighbour_count grid pos = 8)) :=
  mem_update_grid_day_night grid pos

/-- Claim C7: under update_grid the vertical blinker becomes the
horizontal blinker after one step and returns to the vertical blinker
after two steps, whatever the dim component is. -/
theorem blinker_period_two (d : Dim) :
    (update_grid ⟨d, {((1 : ℤ), (0 : ℤ)), (1, 1), (1, 2)}⟩).cells
      = {((0 : ℤ), (1 : ℤ)), (1, 1), (2, 1)} ∧
    (update_grid (update_grid ⟨d, {((1 : ℤ), (0 : ℤ)), (1, 1), (1, 2)}⟩)).cells
      = {((1 : ℤ), (0 : ℤ)), (1, 1), (1, 2)} := by
  have heta : update_grid ⟨d, {((1 : ℤ), (0 : ℤ)), (1, 1), (1, 2)}⟩
      = ⟨d, (update_grid ⟨d, {((1 : ℤ), (0 : ℤ)), (1, 1), (1, 2)}⟩).cells⟩ := rfl
  have h1 : (update_grid ⟨d, {((1 : ℤ), (0 : ℤ)), (1, 1), (1, 2)}⟩).cells
      = {((0 : ℤ), (1 : ℤ)), (1, 1), (2, 1)} := by
    rw [update_grid_cells_dim_indep]
    decide
  refine ⟨h1, ?_⟩
  rw [heta, h1, update_grid_cells_dim_indep]
  decide

/-- Claim C8: each of the four variants returns a grid whose dim equals
the input dim. -/
theorem update_variants_preserve_dim (grid : Grid) :
    (update_grid grid).dim = grid.dim ∧
    (update_grid_highlife grid).dim = grid.dim ∧
    (update_grid_day_night grid).dim = grid.dim ∧
    (update_grid_seeds grid).dim = grid.dim :=
  ⟨rfl, rfl, rfl, rfl⟩

/-- Claim C9: with every random draw in the interval from 0 inclusive to 1
exclusive and non-negative dimensions, a probability at most 0 produces an
empty live set and a probability at least 1 produces exactly the full
dim.width by dim.height rectangle. -/
theorem generate_random_grid_degenerate (dim : Dim) (p : ℚ) (rand : ℕ → ℕ → ℚ)
    (hw : 0 ≤ dim.width) (hh : 0 ≤ dim.height)
    (hrand : ∀ i j, 0 ≤ rand i j ∧ rand i j < 1) :
    (p ≤ 0 → (generate_random_grid dim p rand).cells = ∅) ∧
    (1 ≤ p → ∀ q : ℤ × ℤ,
      q ∈ (generate_random_grid dim p rand).cells ↔
        0 ≤ q.1 ∧ q.1 < dim.width ∧ 0 ≤ q.2 ∧ q.2 < dim.height) := by
  constructor
  · intro hp
    have heq : (generate_random_grid dim p rand).cells
        = ((Finset.range dim.width.toNat ×ˢ Finset.range dim.height.toNat).filter
            (fun q => rand q.1 q.2 < p)).image (fun q => ((q.1 : ℤ), (q.2 : ℤ))) := rfl
    have hnone : ∀ q ∈ Finset.range dim.width.toNat ×ˢ Finset.range dim.height.toNat,
        ¬ rand q.1 q.2 < p := fun q _ => not_lt.mpr (le_trans hp (hrand q.1 q.2).1)
    rw [heq, Finset.filter_false_of_mem hnone, Finset.image_empty]
  · intro hp q
    obtain ⟨qx, qy⟩ := q
    have heq : (generate_random_grid dim p rand).cells
        = ((Finset.range dim.width.toNat ×ˢ Finset.range dim.height.toNat).filter
            (fun q => rand q.1 q.2 < p)).image (fun q => ((q.1 : ℤ), (q.2 : ℤ))) := rfl
    rw [heq, Finset.mem_image]
    constructor
    · rintro ⟨⟨i, j⟩, ha, hpair⟩
      rw [Finset.mem_filter, Finset.mem_product, Finset.mem_range, Finset.mem_range] at ha
      obtain ⟨⟨h1, h2⟩, _⟩ := ha
      have hx : (i : ℤ) = qx := congrArg Prod.fst hpair
      have hy : (j : ℤ) = qy := congrArg Prod.snd hpair
      dsimp only
      omega
    · intro hbounds
      refine ⟨(qx.toNat, qy.toNat), ?_, ?_⟩
      · rw [Finset.mem_filter, Finset.mem_product, Finset.mem_range, Finset.mem_range]
        exact ⟨⟨by omega, by omega⟩, lt_of_lt_of_le (hrand _ _).2 hp⟩
      · rw [Prod.mk.injEq]
        constructor <;> omega

/-- Witness for claim C9: a 2 by 2 dim with the constant draw one half,
applied once with probability 0 and once with probability 1. -/
theorem generate_random_grid_degenerate_witness :
    (generate_random_grid ⟨2, 2⟩ 0 (fun _ _ => 1 / 2)).cells = ∅ ∧
    ((0, 0) ∈ (generate_random_grid ⟨2, 2⟩ 1 (fun _ _ => 1 / 2)).cells ↔
      (0 : ℤ) ≤ 0 ∧ (0 : ℤ) < 2 ∧ (0 : ℤ) ≤ 0 ∧ (0 : ℤ) < 2) :=
  ⟨(generate_random_grid_degenerate ⟨2, 2⟩ 0 (fun _ _ => 1 / 2) (by decide) (by decide)
      (fun i j => by norm_num)).1 le_rfl,
   (generate_random_grid_degenerate ⟨2, 2⟩ 1 (fun _ _ => 1 / 2) (by decide) (by decide)
      (fun i j => by norm_num)).2 le_rfl (0, 0)⟩

/-- Claim C10: for each of the four variants, every live cell of the
output is an input live cell or lies at Chebyshev distance exactly 1 from
some input live cell (the Moore neighbourhood), so births never happen
farther than one cell away from the current population. -/
theorem update_variants_locality (grid : Grid) (p : ℤ × ℤ) :
    (p ∈ (update_grid grid).cells →
      p ∈ grid.cells ∨ ∃ c ∈ grid.cells, max (p.1 - c.1).natAbs (p.2 - c.2).natAbs = 1) ∧
    (p ∈ (update_grid_highlife grid).cells →
      p ∈ grid.cells ∨ ∃ c ∈ grid.cells, max (p.1 - c.1).natAbs (p.2 - c.2).natAbs = 1) ∧
    (p ∈ (update_grid_day_night grid).cells →
      p ∈ grid.cells ∨ ∃ c ∈ grid.cells, max (p.1 - c.1).natAbs (p.2 - c.2).natAbs = 1) ∧
    (p ∈ (update_grid_seeds grid).cells →
      p ∈ grid.cells ∨ ∃ c ∈ grid.cells, max (p.1 - c.1).natAbs (p.2 - c.2).natAbs = 1) := by
  refine ⟨?_, ?_, ?_, ?_⟩
  · intro h
    simp only [update_grid, Finset.mem_union, Finset.mem_filter] at h
    rcases h with ⟨hc, _⟩ | ⟨hs, _⟩
    · exact Or.inl hc
    · exact Or.inr (support_locality grid p hs)
  · intro h
    simp only [update_grid_highlife, Finset.mem_union, Finset.mem_filter] at h
    rcases h with ⟨hc, _⟩ | ⟨hs, _⟩
    · exact Or.inl hc
    · exact Or.inr (support_locality grid p hs)
  · intro h
    simp only [update_grid_day_night, Finset.mem_union, Finset.mem_filter] at h
    rcases h with ⟨hc, _⟩ | ⟨hs, _⟩
    · exact Or.inl hc
    · exact Or.inr (support_locality grid p hs)
  · intro h
    simp only [update_grid_seeds, Finset.mem_union, Finset.mem_filter] at h
    rcases h with hc | ⟨hs, _⟩
    · exact Or.inl hc
    · exact Or.inr (support_locality grid p hs)

/-- Concrete input for the C10 witness: the 2 by 2 block, on which every
variant keeps (0, 0) alive. -/
def locality_witness_grid : Grid :=
  ⟨⟨2, 2⟩, {((0 : ℤ), (0 : ℤ)), (1, 0), (0, 1), (1, 1)}⟩

/-- Witness for claim C10 at the 2 by 2 block and position (0, 0), with
the membership hypothesis of each of the four conjuncts discharged by
computation. -/
theorem update_variants_locality_witness :
    ((0, 0) ∈ (update_grid locality_witness_grid).cells ∧
     (0, 0) ∈ (update_grid_highlife locality_witness_grid).cells ∧
     (0, 0) ∈ (update_grid_day_night locality_witness_grid).cells ∧
     (0, 0) ∈ (update_grid_seeds locality_witness_grid).cells) ∧
    ((0, 0) ∈ locality_witness_grid.cells ∨
      ∃ c ∈ locality_witness_grid.cells,
        max ((0 : ℤ) - c.1).natAbs ((0 : ℤ) - c.2).natAbs = 1) :=
  ⟨⟨by decide, by decide, by decide, by decide⟩,
   (update_variants_locality locality_witness_grid (0, 0)).1 (by decide)⟩
